import Mathlib

/-!
# Verification of the Orchard chord-generator engine (`src/orchard.js`)

This file is a shallow embedding, in Lean 4, of the parts of `orchard.js`
that the specification's claims talk about: the chord generator, voicing,
scale quantization, the performance-pattern generators, the MIDI output layer
with its per-channel active-note registry, and the note-lifecycle handlers of
the main engine.

Conventions of the embedding:
* JavaScript numbers are modelled as `Int` where the code computes with
  integers, and as `ℚ` where the code computes millisecond delays with real
  division (`(127 - dial) / 127`, `60000 / bpm`).  All integer-valued claims
  quantify over ranges on which JS `%` (truncated remainder) agrees with
  `Int.emod`, and `Math.floor(x / 12)` is modelled as `Int.fdiv x 12`.
* JS objects used as string-keyed lookup tables become functions
  `String → Option _`; a failed lookup is `none` (JS `undefined`).
* `Math.random()` is modelled by an explicit oracle `rand : Nat → ℚ`
  supplying one sample per loop index.
* JS `Array.prototype.sort((a, b) => a - b)` is modelled by
  `List.insertionSort (· ≤ ·)`: on integer lists any ascending sort produces
  the same (unique) sorted permutation.
-/

namespace Orchard

/-- Ascending numeric sort, the meaning of `array.sort((a, b) => a - b)`. -/
def sortAsc (l : List Int) : List Int := l.insertionSort (· ≤ ·)

/-- The `note >= 0 && note <= 127` range test used when filtering computed
notes. -/
def noteInRange (note : Int) : Bool := decide (0 ≤ note ∧ note ≤ 127)

/-- The `CHORD_INTERVALS` table: three base intervals per chord type.
An unknown chord type has no entry (JS `undefined`). -/
def CHORD_INTERVALS (chordType : String) : Option (List Int) :=
  if chordType = "Maj" then some [0, 4, 7]
  else if chordType = "Min" then some [0, 3, 7]
  else if chordType = "Sus" then some [0, 5, 7]
  else if chordType = "Dim" then some [0, 3, 6]
  else none

/-- The `EXTENSION_INTERVALS` table: one semitone offset per extension name. -/
def EXTENSION_INTERVALS (ext : String) : Option Int :=
  if ext = "6" then some 9
  else if ext = "m7" then some 10
  else if ext = "M7" then some 11
  else if ext = "9" then some 14
  else none

/-- The `generateChord(rootNote, chordType, extensions)`.

The source spreads `CHORD_INTERVALS[chordType]`; when the chord type is
unknown that spreads `undefined`, which throws a `TypeError`.  The failure is
modelled as `none`.  Extensions are appended only when
`EXTENSION_INTERVALS.hasOwnProperty(ext)` holds (`List.filterMap`).  The
combined intervals are deduplicated (`new Set`), sorted ascending, added to
the root, and results outside `[0, 127]` are dropped.  (`List.dedup` keeps a
different representative occurrence than a JS `Set`, but the subsequent
ascending sort makes the two agree.) -/
def generateChord (rootNote : Int) (chordType : String) (extensions : List String) :
    Option (List Int) :=
  match CHORD_INTERVALS chordType with
  | none => none
  | some baseIntervals =>
    let allIntervals := baseIntervals ++ extensions.filterMap EXTENSION_INTERVALS
    let uniqueIntervals := sortAsc allIntervals.dedup
    let midiNotes := uniqueIntervals.map (fun interval => rootNote + interval)
    some (midiNotes.filter noteInRange)

/-- One iteration of the `applyVoicing` loop: for a positive position the
current lowest note moves up an octave (`shift`/`push`/`sort`); for a
negative position the current highest note moves down an octave
(`pop`/`unshift`/`sort`).  The `[]` cases are unreachable because
`applyVoicing` returns early on the empty list. -/
def voicingStep (position : Int) (l : List Int) : List Int :=
  if 0 < position then
    match l with
    | [] => []
    | lowest :: rest => sortAsc (rest ++ [lowest + 12])
  else if position < 0 then
    match l.getLast? with
    | none => []
    | some highest => sortAsc ((highest - 12) :: l.dropLast)
  else l

/-- The `applyVoicing(notes, position)`: sort ascending, apply `|position|`
octave-moving steps, then filter the result to `[0, 127]`. -/
def applyVoicing (notes : List Int) (position : Int) : List Int :=
  if notes = [] then notes
  else
    let result := (voicingStep position)^[position.natAbs] (sortAsc notes)
    result.filter noteInRange

/-- The `applyBassVoicing(rootNote, bassOctave)`:
`Math.max(24, Math.min(60, rootNote + bassOctave * 12))`. -/
def applyBassVoicing (rootNote : Int) (bassOctave : Int) : Int :=
  max 24 (min 60 (rootNote + bassOctave * 12))

/-- The `SCALE_DEGREES` table: ascending pitch-class offsets of the eight scales. -/
def SCALE_DEGREES (scaleType : String) : Option (List Int) :=
  if scaleType = "major" then some [0, 2, 4, 5, 7, 9, 11]
  else if scaleType = "natural_minor" then some [0, 2, 3, 5, 7, 8, 10]
  else if scaleType = "harmonic_minor" then some [0, 2, 3, 5, 7, 8, 11]
  else if scaleType = "dorian" then some [0, 2, 3, 5, 7, 9, 10]
  else if scaleType = "mixolydian" then some [0, 2, 4, 5, 7, 9, 10]
  else if scaleType = "pentatonic_major" then some [0, 2, 4, 7, 9]
  else if scaleType = "pentatonic_minor" then some [0, 3, 5, 7, 10]
  else if scaleType = "blues" then some [0, 3, 5, 6, 7, 10]
  else none

/-- The `KEY_MODE_MAPPINGS`: degree → chord-quality tables for the first three
scales, as association lists. -/
def KEY_MODE_MAPPINGS (scaleType : String) : Option (List (Int × String)) :=
  if scaleType = "major" then
    some [(0, "Maj"), (2, "Min"), (4, "Min"), (5, "Maj"), (7, "Maj"), (9, "Min"), (11, "Dim")]
  else if scaleType = "natural_minor" then
    some [(0, "Min"), (2, "Dim"), (3, "Maj"), (5, "Min"), (7, "Min"), (8, "Maj"), (10, "Maj")]
  else if scaleType = "harmonic_minor" then
    some [(0, "Min"), (2, "Dim"), (3, "Maj"), (5, "Min"), (7, "Maj"), (8, "Maj"), (11, "Dim")]
  else none

/-- The `ADDITIONAL_KEY_MODE_MAPPINGS`: degree → chord-quality tables for the
remaining five scales. -/
def ADDITIONAL_KEY_MODE_MAPPINGS (scaleType : String) : Option (List (Int × String)) :=
  if scaleType = "dorian" then
    some [(0, "Min"), (2, "Min"), (3, "Maj"), (5, "Maj"), (7, "Min"), (9, "Dim"), (10, "Maj")]
  else if scaleType = "mixolydian" then
    some [(0, "Maj"), (2, "Min"), (4, "Dim"), (5, "Maj"), (7, "Min"), (9, "Min"), (10, "Maj")]
  else if scaleType = "pentatonic_major" then
    some [(0, "Maj"), (2, "Min"), (4, "Min"), (7, "Maj"), (9, "Min")]
  else if scaleType = "pentatonic_minor" then
    some [(0, "Min"), (3, "Maj"), (5, "Min"), (7, "Min"), (10, "Maj")]
  else if scaleType = "blues" then
    some [(0, "Min"), (3, "Maj"), (5, "Min"), (6, "Dim"), (7, "Min"), (10, "Maj")]
  else none

/-- The `quantizeToScale(interval, scaleDegrees)`: scan the degree list in order,
keeping the first degree that strictly lowers the wrap-aware semitone
distance (`Math.min(|i-d|, |i-d+12|, |i-d-12|)`); `nearest` starts at
`scaleDegrees[0]` and `minDistance` at 12.  The same loop is inlined inside
`quantizeNoteToKey` in the source. -/
def quantizeToScale (interval : Int) (scaleDegrees : List Int) : Int :=
  (scaleDegrees.foldl
    (fun acc degree =>
      let distance :=
        min (min (interval - degree).natAbs (interval - degree + 12).natAbs)
          (interval - degree - 12).natAbs
      if distance < acc.2 then (degree, distance) else acc)
    (scaleDegrees.headD 0, 12)).1

/-- The `quantizeNoteToKey(midiNote, keyRoot, scaleType)`: unknown scales return
the input unchanged; an in-scale pitch-class offset returns the input
unchanged; otherwise snap to the nearest degree, correct octave wrap when the
snapped pitch class is more than 6 semitones away within the octave, and
clamp the result to `[0, 127]`. -/
def quantizeNoteToKey (midiNote keyRoot : Int) (scaleType : String) : Int :=
  match SCALE_DEGREES scaleType with
  | none => midiNote
  | some scaleDegrees =>
    let octave := Int.fdiv midiNote 12
    let noteInOctave := midiNote % 12
    let interval := ((noteInOctave - keyRoot) + 12) % 12
    if interval ∈ scaleDegrees then midiNote
    else
      let nearestInterval := quantizeToScale interval scaleDegrees
      let quantizedNoteInOctave := (keyRoot + nearestInterval) % 12
      let quantizedNote := octave * 12 + quantizedNoteInOctave
      let adjusted :=
        if quantizedNoteInOctave < noteInOctave ∧ noteInOctave - quantizedNoteInOctave > 6 then
          quantizedNote + 12
        else if quantizedNoteInOctave > noteInOctave ∧ quantizedNoteInOctave - noteInOctave > 6 then
          quantizedNote - 12
        else quantizedNote
      max 0 (min 127 adjusted)

/-- The `getKeyModeChordType(pressedNote, keyRoot, scaleType)`: look the
pitch-class offset up in the scale's degree→quality table, quantizing to the
nearest degree first when absent; `"Maj"` when the scale has no table.
(When a table exists, `SCALE_DEGREES` has an entry for the same key, so the
inner `none` case is unreachable.) -/
def getKeyModeChordType (pressedNote keyRoot : Int) (scaleType : String) : String :=
  let interval := ((pressedNote % 12) - keyRoot + 12) % 12
  match (KEY_MODE_MAPPINGS scaleType).orElse (fun _ => ADDITIONAL_KEY_MODE_MAPPINGS scaleType) with
  | none => "Maj"
  | some mapping =>
    match mapping.lookup interval with
    | some quality => quality
    | none =>
      match SCALE_DEGREES scaleType with
      | none => "Maj"
      | some scaleDegrees => (mapping.lookup (quantizeToScale interval scaleDegrees)).getD "Maj"

/-! ## Performance engine -/

/-- The three logical output channels of `MIDI_CHANNELS`. -/
abbrev Channel := Fin 3

/-- The `MIDI_CHANNELS.CHORD`. -/
def chCHORD : Channel := 0
/-- The `MIDI_CHANNELS.PERFORMANCE`. -/
def chPERFORMANCE : Channel := 1
/-- The `MIDI_CHANNELS.BASS`. -/
def chBASS : Channel := 2

/-- An event produced by a pattern generator (`generateStrum`,
`generateArpeggio`, `generateHarp`): note, velocity, delay in milliseconds,
optional gate duration, output channel.  Strum and harp events carry no
`durationMs` field in the source (JS `undefined`), modelled as `none`. -/
structure PerfEvent where
  note : Int
  velocity : Int
  delayMs : ℚ
  durationMs : Option ℚ
  channel : Channel
deriving DecidableEq

/-- The `options` object of `generateStrum`. -/
structure StrumOptions where
  twoOctaves : Bool
  slop : Int
deriving DecidableEq

/-- The `generateStrum(notes, dialPosition, velocity, options)`.  `rand` is the
`Math.random()` oracle (one sample per note index), consulted only when
`slop > 0`. -/
def generateStrum (notes : List Int) (dialPosition velocity : Int)
    (options : StrumOptions) (rand : Nat → ℚ) : List PerfEvent :=
  let sequence := sortAsc notes
  let sequence :=
    if options.twoOctaves then
      sortAsc (sequence ++ (sequence.map (· + 12)).filter (fun n => decide (n ≤ 127)))
    else sequence
  let MIN_DELAY : ℚ := 10
  let MAX_DELAY : ℚ := 100
  let delayPerNote : ℚ := MIN_DELAY + ((127 - (dialPosition : ℚ)) / 127) * (MAX_DELAY - MIN_DELAY)
  let maxSlopMs : ℚ := ((options.slop : ℚ) / 127) * 50
  sequence.mapIdx (fun index note =>
    let timing : ℚ := index * delayPerNote
    let timing :=
      if options.slop > 0 then max 0 (timing + (rand index - 1/2) * 2 * maxSlopMs) else timing
    { note := note, velocity := velocity, delayMs := timing, durationMs := none,
      channel := chPERFORMANCE })

/-- The `arr[i]` / `arr[j]` swap used by `shuffleArray`. -/
def jsSwap (l : List Int) (i j : Nat) : List Int :=
  let a := l.getD i 0
  let b := l.getD j 0
  (l.set i b).set j a

/-- The `shuffleArray` (Fisher–Yates, iterating `i` from `length - 1` down to 1,
with `j = Math.floor(Math.random() * (i + 1))`), driven by the `rand`
oracle. -/
def shuffleArray (rand : Nat → ℚ) (array : List Int) : List Int :=
  ((List.range' 1 (array.length - 1)).reverse).foldl
    (fun arr i => jsSwap arr i (Int.toNat ⌊rand i * ((i : ℚ) + 1)⌋)) array

/-- The `applyArpPattern(notes, pattern)`: reorder the ascending-sorted notes per
pattern name; unknown patterns fall back to the ascending order. -/
def applyArpPattern (notes : List Int) (pattern : String) (rand : Nat → ℚ) : List Int :=
  let sorted := sortAsc notes
  if pattern = "up" then sorted
  else if pattern = "down" then sorted.reverse
  else if pattern = "upDown" then
    if sorted.length ≤ 1 then sorted
    else sorted ++ ((sorted.drop 1).dropLast).reverse
  else if pattern = "downUp" then
    if sorted.length ≤ 1 then sorted
    else
      let reversed := sorted.reverse
      reversed ++ ((reversed.drop 1).dropLast).reverse
  else if pattern = "random" then shuffleArray rand sorted
  else sorted

/-- The `NOTE_DIVISIONS` table. -/
def NOTE_DIVISIONS (division : String) : Option ℚ :=
  if division = "1/4" then some 1
  else if division = "1/8" then some 2
  else if division = "1/12" then some 3
  else if division = "1/16" then some 4
  else if division = "1/24" then some 6
  else if division = "1/32" then some 8
  else none

/-- Result record of `generateArpeggio`. -/
structure ArpResult where
  sequence : List PerfEvent
  stepMs : ℚ
  gateMs : ℚ
  totalDurationMs : ℚ

/-- The `generateArpeggio(notes, bpm, pattern, division, velocity, options)`.
An unknown division name makes `NOTE_DIVISIONS[division]` undefined and the
millisecond arithmetic degenerate (NaN); that case is modelled as `none`. -/
def generateArpeggio (notes : List Int) (bpm : Int) (pattern division : String)
    (velocity : Int) (twoOctaves : Bool) (rand : Nat → ℚ) : Option ArpResult :=
  let sequence := applyArpPattern notes pattern rand
  let sequence :=
    if twoOctaves then
      sequence ++ (sequence.map (· + 12)).filter (fun n => decide (n ≤ 127))
    else sequence
  match NOTE_DIVISIONS division with
  | none => none
  | some divisor =>
    let quarterNoteMs : ℚ := 60000 / (bpm : ℚ)
    let stepMs := quarterNoteMs / divisor
    let gateMs := stepMs * (85 / 100)
    let events := sequence.mapIdx (fun index note =>
      { note := note, velocity := velocity, delayMs := index * stepMs,
        durationMs := some gateMs, channel := chPERFORMANCE })
    some { sequence := events, stepMs := stepMs, gateMs := gateMs,
           totalDurationMs := sequence.length * stepMs }

/-- The `generateHarp(notes, bpm, velocity)`: expand the sorted chord across four
octaves (dropping results above 127), sort, and space the notes by a
sixteenth of a quarter note. -/
def generateHarp (notes : List Int) (bpm : Int) (velocity : Int) : List PerfEvent :=
  let baseNotes := sortAsc notes
  let expanded :=
    (List.range 4).flatMap (fun octave =>
      (baseNotes.map (fun note => note + (octave : Int) * 12)).filter
        (fun n => decide (n ≤ 127)))
  let expanded := sortAsc expanded
  let quarterNoteMs : ℚ := 60000 / (bpm : ℚ)
  let intervalMs := quarterNoteMs / 16
  expanded.mapIdx (fun index note =>
    { note := note, velocity := velocity, delayMs := index * intervalMs,
      durationMs := none, channel := chPERFORMANCE })

/-! ## MIDI output layer (`OrchardMIDI`)

`output.send([...])` calls are modelled as an emitted list of `MidiMsg`; the
`status` byte is determined by the channel and the on/off kind, and the note
and velocity bytes are masked with `& 0x7F`, which on int32 values equals
`Int.emod _ 128`. -/

/-- A message sent to the selected MIDI output. -/
inductive MidiMsg where
  | on (channel : Channel) (note : Int) (velocity : Int)
  | off (channel : Channel) (note : Int)
deriving DecidableEq

/-- An event handed to `scheduleBatch` by the engine. -/
structure SchedEvent where
  type : String
  channel : Channel
  note : Int
  velocity : Int
  timestamp : ℚ
  durationMs : Option ℚ
deriving DecidableEq

/-- The mutable state of `OrchardMIDI`: whether an output device is selected,
the per-channel active-note registry (a JS `Set`, i.e. an insertion-ordered
duplicate-free list), and the pending scheduled events (standing in for the
`pendingTimeouts` timer handles; the claims never fire a timer). -/
structure MidiState where
  output : Bool
  activeNotes : Channel → List Int
  pending : List SchedEvent

/-- The constructor state: no output, three empty registries, no timers. -/
def initMidi : MidiState :=
  { output := false, activeNotes := fun _ => [], pending := [] }

/-- The `Set.add`: append unless already present. -/
def insertNote (l : List Int) (note : Int) : List Int :=
  if note ∈ l then l else l ++ [note]

/-- The `Set.delete`: remove the occurrence of `note` (a JS `Set` holds at most
one, so removing every occurrence is the same operation). -/
def deleteNote (l : List Int) (note : Int) : List Int :=
  l.filter (fun n => decide (n ≠ note))

/-- The `OrchardMIDI.noteOn(channel, note, velocity)`: no-op without an output;
otherwise send the note-on message and add the note to the channel's
registry. -/
def MidiState.noteOn (s : MidiState) (channel : Channel) (note velocity : Int) :
    MidiState × List MidiMsg :=
  if s.output then
    ({ s with activeNotes := fun ch =>
        if ch = channel then insertNote (s.activeNotes channel) note else s.activeNotes ch },
     [MidiMsg.on channel (note % 128) (velocity % 128)])
  else (s, [])

/-- The `OrchardMIDI.noteOff(channel, note)`: no-op without an output; otherwise
send the note-off message and delete the note from the channel's registry. -/
def MidiState.noteOff (s : MidiState) (channel : Channel) (note : Int) :
    MidiState × List MidiMsg :=
  if s.output then
    ({ s with activeNotes := fun ch =>
        if ch = channel then deleteNote (s.activeNotes channel) note else s.activeNotes ch },
     [MidiMsg.off channel (note % 128)])
  else (s, [])

/-- The `active.forEach(note => this.noteOff(channel, note))` iteration of
`allNotesOff`, sequentially applied to a snapshot of the registry.  (JS
`Set.forEach` visits every element even though the callback deletes the
element currently visited, so iterating the snapshot is faithful.) -/
def MidiState.noteOffList : MidiState → Channel → List Int → MidiState × List MidiMsg
  | s, _, [] => (s, [])
  | s, channel, note :: rest =>
    let r := s.noteOff channel note
    let r2 := r.1.noteOffList channel rest
    (r2.1, r.2 ++ r2.2)

/-- The `OrchardMIDI.allNotesOff(channel)`: call `noteOff` for every note in the
channel's registry. -/
def MidiState.allNotesOff (s : MidiState) (channel : Channel) : MidiState × List MidiMsg :=
  s.noteOffList channel (s.activeNotes channel)

/-- The `OrchardMIDI.cancelPending()`: clear every pending timer. -/
def MidiState.cancelPending (s : MidiState) : MidiState :=
  { s with pending := [] }

/-- The `OrchardMIDI.scheduleBatch(events, cancelPrevious)`: optionally cancel
the pending timers, then register a timer per event (the callbacks
themselves fire later and are not part of this synchronous step). -/
def MidiState.scheduleBatch (s : MidiState) (events : List SchedEvent)
    (cancelPrevious : Bool) : MidiState :=
  let s := if cancelPrevious then s.cancelPending else s
  { s with pending := s.pending ++ events }

/-- States of `OrchardMIDI` reachable from the constructor state through its
public operations.  `connect` is `selectOutput(output)` with an actual
device, the only way the UI calls it. -/
inductive Reachable : MidiState → Prop where
  | init : Reachable initMidi
  | connect {s} : Reachable s → Reachable { s with output := true }
  | noteOn {s} (channel : Channel) (note velocity : Int) :
      Reachable s → Reachable (s.noteOn channel note velocity).1
  | noteOff {s} (channel : Channel) (note : Int) :
      Reachable s → Reachable (s.noteOff channel note).1
  | allOff {s} (channel : Channel) :
      Reachable s → Reachable (s.allNotesOff channel).1
  | cancel {s} : Reachable s → Reachable s.cancelPending
  | sched {s} (events : List SchedEvent) (cancelPrevious : Bool) :
      Reachable s → Reachable (s.scheduleBatch events cancelPrevious)

/-! ## Main engine (`OrchardEngine`)

Only the MIDI-visible behaviour is embedded: key highlighting, the chord-name
display and the Web-Audio preview are external UI/tone-producer boundaries
(spec §1/§6) with no feedback into the engine state, and are omitted. -/

/-- A `{enabled, root, scale}` key-mode or quantize setting. -/
structure ScaleSetting where
  enabled : Bool
  root : Int
  scale : String
deriving DecidableEq

/-- One zone of the split configuration.  `chordType` is the raw string from
the zone select: `""` means manual, `"auto"` derives from the scale, any other
value is a fixed chord type. -/
structure ZoneSettings where
  mode : String
  chordType : String
  playstyle : String
  performanceMode : String
  keyMode : ScaleSetting
  quantize : ScaleSetting
deriving DecidableEq

/-- The `split` object of the engine state. -/
structure SplitSettings where
  enabled : Bool
  point : Int
  lower : ZoneSettings
  upper : ZoneSettings
deriving DecidableEq

/-- The record returned by `getEffectiveSettings`. -/
structure EffectiveSettings where
  playstyle : String
  performanceMode : String
  keyMode : ScaleSetting
  quantize : ScaleSetting
deriving DecidableEq

/-- The engine state (`OrchardEngine.state` plus its `OrchardMIDI` instance).
`quantizedNoteMap` is created lazily in the source (`… || new Map()`);
here it is always present, starting empty.  `rand` is the `Math.random()`
oracle threaded to the pattern generators. -/
structure EngineState where
  midi : MidiState
  keyMode : ScaleSetting
  quantize : ScaleSetting
  playstyle : String
  performanceMode : String
  voicingPosition : Int
  bassOctave : Int
  performanceDial : Int
  bpm : Int
  arpPattern : String
  arpDivision : String
  activeKey : Option Int
  activeMidiNote : Option Int
  activeChordType : Option String
  activeExtensions : List String
  currentChord : List Int
  velocity : Int
  suppressRoot : Bool
  globalMode : String
  split : SplitSettings
  passThroughNotes : List Int
  quantizedNoteMap : List (Int × Int)
  rand : Nat → ℚ

/-- The `getDefaultState()` (with a connected-or-not `OrchardMIDI` in its
constructor state and a fixed oracle). -/
def getDefaultState : EngineState where
  midi := initMidi
  keyMode := ⟨false, 0, "major"⟩
  quantize := ⟨false, 0, "major"⟩
  playstyle := "advanced"
  performanceMode := "off"
  voicingPosition := 0
  bassOctave := 0
  performanceDial := 64
  bpm := 120
  arpPattern := "up"
  arpDivision := "1/8"
  activeKey := none
  activeMidiNote := none
  activeChordType := none
  activeExtensions := []
  currentChord := []
  velocity := 100
  suppressRoot := false
  globalMode := "chord"
  split :=
    ⟨false, 60,
      ⟨"chord", "", "advanced", "off", ⟨false, 0, "major"⟩, ⟨false, 0, "major"⟩⟩,
      ⟨"off", "", "advanced", "off", ⟨false, 0, "major"⟩, ⟨false, 0, "major"⟩⟩⟩
  passThroughNotes := []
  quantizedNoteMap := []
  rand := fun _ => 0

/-- A concrete engine configuration: the default state with the global mode
switched to `"quantize"` and a MIDI output connected. -/
def quantizeModeState : EngineState :=
  { getDefaultState with globalMode := "quantize", midi := { initMidi with output := true } }

/-- The `Map.set`: overwrite the value at an existing key, else append. -/
def mapSet (m : List (Int × Int)) (k v : Int) : List (Int × Int) :=
  if m.any (fun p => decide (p.1 = k)) then
    m.map (fun p => if p.1 = k then (k, v) else p)
  else m ++ [(k, v)]

/-- The `Map.get`: value at the key, if present. -/
def mapGet (m : List (Int × Int)) (k : Int) : Option Int :=
  (m.find? (fun p => decide (p.1 = k))).map (·.2)

/-- The `Map.delete`. -/
def mapDelete (m : List (Int × Int)) (k : Int) : List (Int × Int) :=
  m.filter (fun p => decide (p.1 ≠ k))

/-- The `getModeForNote(midiNote)`: the global mode when split is disabled, else
the mode of the zone the note falls in. -/
def EngineState.getModeForNote (e : EngineState) (midiNote : Int) : String :=
  if ¬e.split.enabled then e.globalMode
  else if midiNote < e.split.point then e.split.lower.mode
  else e.split.upper.mode

/-- The `getZoneForNote(midiNote)`. -/
def EngineState.getZoneForNote (e : EngineState) (midiNote : Int) : ZoneSettings :=
  if midiNote < e.split.point then e.split.lower else e.split.upper

/-- The `getZoneChordType(midiNote)`: `null` when split is disabled; otherwise
the zone's chord type, with the falsy `""` mapped to `null` (manual). -/
def EngineState.getZoneChordType (e : EngineState) (midiNote : Int) : Option String :=
  if ¬e.split.enabled then none
  else
    let zone := e.getZoneForNote midiNote
    if zone.chordType = "" then none else some zone.chordType

/-- The `getEffectiveSettings(midiNote)`. -/
def EngineState.getEffectiveSettings (e : EngineState) (midiNote : Int) : EffectiveSettings :=
  if ¬e.split.enabled then
    ⟨e.playstyle, e.performanceMode, e.keyMode, e.quantize⟩
  else
    let zone := e.getZoneForNote midiNote
    ⟨zone.playstyle, zone.performanceMode, zone.keyMode, zone.quantize⟩

/-- Sequential `noteOn` calls for a list of notes on one channel (the
`forEach` loops in `sendOutput`). -/
def MidiState.noteOnList : MidiState → Channel → List Int → Int → MidiState × List MidiMsg
  | s, _, [], _ => (s, [])
  | s, channel, note :: rest, velocity =>
    let r := s.noteOn channel note velocity
    let r2 := r.1.noteOnList channel rest velocity
    (r2.1, r.2 ++ r2.2)

/-- The `generateCurrentArpNotes()`: regenerate the chord for the arpeggiator
loop from the live state; `none` models the JS `null` returned when no key is
active (the inner `none` from `generateChord` models the unreachable throw on
an unknown chord type). -/
def EngineState.generateCurrentArpNotes (e : EngineState) : Option (List Int) :=
  match e.activeKey with
  | none => none
  | some activeKey =>
    let keyNote := activeKey
    let rootNote := match e.activeMidiNote with | some m => m | none => keyNote + 48
    let settings := e.getEffectiveSettings rootNote
    let rootKey :=
      if settings.quantize.enabled then
        let r := quantizeNoteToKey rootNote settings.quantize.root settings.quantize.scale
        (r, r % 12)
      else (rootNote, keyNote)
    let rootNote := rootKey.1
    let keyNote := rootKey.2
    let chordType : Option String :=
      match e.activeChordType with
      | some ct => some ct
      | none =>
        if settings.keyMode.enabled then
          some (getKeyModeChordType keyNote settings.keyMode.root settings.keyMode.scale)
        else none
    match chordType with
    | none => some [rootNote]
    | some ct =>
      match generateChord rootNote ct e.activeExtensions with
      | none => none
      | some baseChord =>
        let voicedChord := applyVoicing baseChord e.voicingPosition
        if e.suppressRoot then
          some (voicedChord.filter (fun n => decide (n % 12 ≠ rootNote % 12)))
        else some voicedChord

/-- The events scheduled by one `playSequence()` iteration of
`startArpLoop` (a non-cancelling batch built from the arpeggio result). -/
def EngineState.startArpLoopBatch (e : EngineState) (twoOctaves : Bool) : MidiState :=
  match e.generateCurrentArpNotes with
  | none => e.midi
  | some currentNotes =>
    match generateArpeggio currentNotes e.bpm e.arpPattern e.arpDivision e.velocity
        twoOctaves e.rand with
    | none => e.midi
    | some arpResult =>
      e.midi.scheduleBatch
        (arpResult.sequence.map (fun ev =>
          { type := "noteOn", channel := ev.channel, note := ev.note,
            velocity := ev.velocity, timestamp := ev.delayMs,
            durationMs := ev.durationMs }))
        false

/-- The `sendOutput(notes, velocity, rootNote, settings)`: flush and resend the
chord channel (suppress-root filtered), the bass channel, cancel pending
timers, flush the performance channel, and schedule the selected performance
pattern.  The JS reads `notes[0]` for the bass root; on an empty chord that
is `undefined` and the bass send degenerates — `headD 0` stands in for that
unreachable-in-the-claims case. -/
def EngineState.sendOutput (e : EngineState) (notes : List Int) (velocity rootNote : Int)
    (settings : Option EffectiveSettings) : EngineState × List MidiMsg :=
  let perfMode := match settings with | some s => s.performanceMode | none => e.performanceMode
  let rootPitchClass := rootNote % 12
  let filterRoot := fun (noteArray : List Int) =>
    if ¬e.suppressRoot then noteArray
    else noteArray.filter (fun n => decide (n % 12 ≠ rootPitchClass))
  let r1 := e.midi.allNotesOff chCHORD
  let r2 := r1.1.noteOnList chCHORD (filterRoot notes) velocity
  let bassNote := applyBassVoicing (notes.headD 0) e.bassOctave
  let r3 := r2.1.allNotesOff chBASS
  let r4 :=
    if ¬e.suppressRoot then r3.1.noteOn chBASS bassNote velocity else (r3.1, [])
  let m5 := r4.1.cancelPending
  let r6 := m5.allNotesOff chPERFORMANCE
  let msgs := r1.2 ++ r2.2 ++ r3.2 ++ r4.2 ++ r6.2
  let filteredNotes := filterRoot notes
  let schedule := fun (events : List PerfEvent) =>
    r6.1.scheduleBatch
      (events.map (fun ev =>
        { type := "noteOn", channel := ev.channel, note := ev.note,
          velocity := ev.velocity, timestamp := ev.delayMs,
          durationMs := ev.durationMs }))
      true
  let finalMidi : MidiState :=
    if perfMode = "strum" then
      schedule (generateStrum filteredNotes e.performanceDial velocity ⟨false, 0⟩ e.rand)
    else if perfMode = "strum2oct" then
      schedule (generateStrum filteredNotes e.performanceDial velocity ⟨true, 0⟩ e.rand)
    else if perfMode = "slop" then
      schedule
        (generateStrum filteredNotes e.performanceDial velocity ⟨false, e.performanceDial⟩ e.rand)
    else if perfMode = "arp" then
      EngineState.startArpLoopBatch { e with midi := r6.1 } false
    else if perfMode = "arp2oct" then
      EngineState.startArpLoopBatch { e with midi := r6.1 } true
    else if perfMode = "harp" then
      schedule (generateHarp filteredNotes e.bpm velocity)
    else r6.1
  ({ e with midi := finalMidi }, msgs)

/-- The `updateOutputWithOptions(velocity, midiNote, zoneChordType)`: no-op
without an active key; otherwise quantize the root when enabled, resolve the
chord type (zone `"auto"` → scale derivation, zone fixed value, manual
button, key-mode derivation, or none → bare root), generate and voice the
chord, store it as `currentChord`, and send it.  `(e, [])` in the inner
`none` case models the `TypeError` a JS caller would see for an unknown
chord type (unreachable from the UI). -/
def EngineState.updateOutputWithOptions (e : EngineState) (velocity : Int)
    (midiNote : Option Int) (zoneChordType : Option String) : EngineState × List MidiMsg :=
  match e.activeKey with
  | none => (e, [])
  | some activeKey =>
    let keyNote := activeKey
    let rootNote := match midiNote with | some m => m | none => keyNote + 48
    let effectiveNote := match midiNote with | some m => m | none => keyNote + 48
    let settings := e.getEffectiveSettings effectiveNote
    let rootKey :=
      if settings.quantize.enabled then
        let r := quantizeNoteToKey rootNote settings.quantize.root settings.quantize.scale
        (r, r % 12)
      else (rootNote, keyNote)
    let rootNote := rootKey.1
    let keyNote := rootKey.2
    let chordType : Option String :=
      if zoneChordType = some "auto" then
        some (getKeyModeChordType keyNote settings.keyMode.root settings.keyMode.scale)
      else
        match zoneChordType with
        | some zct => some zct
        | none =>
          match e.activeChordType with
          | some ct => some ct
          | none =>
            if settings.keyMode.enabled then
              some (getKeyModeChordType keyNote settings.keyMode.root settings.keyMode.scale)
            else none
    match chordType with
    | some ct =>
      match generateChord rootNote ct e.activeExtensions with
      | none => (e, [])
      | some baseChord =>
        let currentChord := applyVoicing baseChord e.voicingPosition
        let e1 := { e with currentChord := currentChord }
        e1.sendOutput currentChord velocity rootNote (some settings)
    | none =>
      let e1 := { e with currentChord := [rootNote] }
      e1.sendOutput [rootNote] velocity rootNote (some settings)

/-- The `stopOutput()`: cancel pending timers, flush all three channels, clear
the current chord. -/
def EngineState.stopOutput (e : EngineState) : EngineState × List MidiMsg :=
  let m1 := e.midi.cancelPending
  let r1 := m1.allNotesOff chCHORD
  let r2 := r1.1.allNotesOff chPERFORMANCE
  let r3 := r2.1.allNotesOff chBASS
  ({ e with midi := r3.1, currentChord := [] }, r1.2 ++ r2.2 ++ r3.2)

/-- The `onMIDINoteOn(midiNote, velocity)`: pass-through mode forwards the note
as-is; quantize mode forwards the quantized note and records the
pressed→sent mapping; chord mode makes the note the active root and
regenerates the output. -/
def EngineState.onMIDINoteOn (e : EngineState) (midiNote velocity : Int) :
    EngineState × List MidiMsg :=
  let keyNote := midiNote % 12
  let mode := e.getModeForNote midiNote
  if mode = "off" then
    let e1 := { e with passThroughNotes := insertNote e.passThroughNotes midiNote }
    let r := e1.midi.noteOn chCHORD midiNote velocity
    ({ e1 with midi := r.1 }, r.2)
  else if mode = "quantize" then
    let settings := e.getEffectiveSettings midiNote
    let outputNote := quantizeNoteToKey midiNote settings.quantize.root settings.quantize.scale
    let e1 := { e with
      passThroughNotes := insertNote e.passThroughNotes midiNote,
      quantizedNoteMap := mapSet e.quantizedNoteMap midiNote outputNote }
    let r := e1.midi.noteOn chCHORD outputNote velocity
    ({ e1 with midi := r.1 }, r.2)
  else
    let e1 := { e with activeMidiNote := some midiNote, activeKey := some keyNote,
                       velocity := velocity }
    let zoneChordType := e1.getZoneChordType midiNote
    e1.updateOutputWithOptions velocity (some midiNote) zoneChordType

/-- The `onMIDINoteOff(midiNote)`: a pass-through note releases either the
quantized note recorded for it (deleting the mapping) or the note itself;
the active chord-generation note triggers `stopOutput`. -/
def EngineState.onMIDINoteOff (e : EngineState) (midiNote : Int) :
    EngineState × List MidiMsg :=
  if midiNote ∈ e.passThroughNotes then
    let e1 := { e with passThroughNotes := deleteNote e.passThroughNotes midiNote }
    match mapGet e1.quantizedNoteMap midiNote with
    | some quantizedNote =>
      let e2 := { e1 with quantizedNoteMap := mapDelete e1.quantizedNoteMap midiNote }
      let r := e2.midi.noteOff chCHORD quantizedNote
      ({ e2 with midi := r.1 }, r.2)
    | none =>
      let r := e1.midi.noteOff chCHORD midiNote
      ({ e1 with midi := r.1 }, r.2)
  else if e.activeMidiNote = some midiNote then
    let r := e.stopOutput
    ({ r.1 with activeKey := none, activeMidiNote := none }, r.2)
  else (e, [])

/-! ## Theorems -/

/-- C9: for every root note and every bass octave shift in `[-2, 2]`,
`applyBassVoicing(root, shift)` returns `root + 12 * shift` clamped into
`[24, 60]`, and in particular the result always lies in `[24, 60]`. -/
theorem applyBassVoicing_in_band (rootNote bassOctave : Int)
    (h1 : -2 ≤ bassOctave) (h2 : bassOctave ≤ 2) :
    applyBassVoicing rootNote bassOctave = max 24 (min 60 (rootNote + bassOctave * 12)) ∧
      24 ≤ applyBassVoicing rootNote bassOctave ∧ applyBassVoicing rootNote bassOctave ≤ 60 := by
  refine ⟨rfl, ?_, ?_⟩ <;> (unfold applyBassVoicing; omega)

/-- Witness for C9 at root 1000, shift 2 (far above the band). -/
theorem applyBassVoicing_in_band_witness :
    (-2 ≤ (2 : Int) ∧ (2 : Int) ≤ 2) ∧
      (applyBassVoicing 1000 2 = max 24 (min 60 (1000 + 2 * 12)) ∧
        24 ≤ applyBassVoicing 1000 2 ∧ applyBassVoicing 1000 2 ≤ 60) :=
  ⟨⟨by decide, by decide⟩, applyBassVoicing_in_band 1000 2 (by decide) (by decide)⟩

/-- C10: for every MIDI note and key root, `quantizeNoteToKey` with a scale
type that is not one of the eight supported scale names returns the input
note unchanged. -/
theorem quantizeNoteToKey_unknown_scale (midiNote keyRoot : Int) (scaleType : String)
    (h : scaleType ∉ (["major", "natural_minor", "harmonic_minor", "dorian", "mixolydian",
      "pentatonic_major", "pentatonic_minor", "blues"] : List String)) :
    quantizeNoteToKey midiNote keyRoot scaleType = midiNote := by
  simp only [List.mem_cons, List.not_mem_nil, or_false, not_or] at h
  obtain ⟨h1, h2, h3, h4, h5, h6, h7, h8⟩ := h
  have hd : SCALE_DEGREES scaleType = none := by
    simp [SCALE_DEGREES, h1, h2, h3, h4, h5, h6, h7, h8]
  simp [quantizeNoteToKey, hd]

/-- Witness for C10 at scale name `"chromatic"`. -/
theorem quantizeNoteToKey_unknown_scale_witness :
    ("chromatic" ∉ (["major", "natural_minor", "harmonic_minor", "dorian", "mixolydian",
        "pentatonic_major", "pentatonic_minor", "blues"] : List String)) ∧
      quantizeNoteToKey 61 5 "chromatic" = 61 :=
  ⟨by decide, quantizeNoteToKey_unknown_scale 61 5 "chromatic" (by decide)⟩

/-- C3 counterexample: `generateChord` with the unknown chord type `"Foo"`
does not fall back to the Major chord — it fails (the source spreads
`CHORD_INTERVALS[chordType] = undefined`, throwing a `TypeError`; modelled
as `none`), while the Major chord at the same root is `[60, 64, 67]`. -/
theorem generateChord_unknown_type_cex :
    generateChord 60 "Foo" [] = none ∧ generateChord 60 "Maj" [] = some [60, 64, 67] := by
  constructor <;> rfl

/-- C3 amended: for every root and extension list, calling `generateChord`
with a chord type outside `{Maj, Min, Sus, Dim}` fails (the interval-table
lookup finds no entry and the spread throws); no Major-chord fallback takes
place in this function. -/
theorem generateChord_unknown_type_fails (rootNote : Int) (chordType : String)
    (extensions : List String)
    (h : chordType ≠ "Maj" ∧ chordType ≠ "Min" ∧ chordType ≠ "Sus" ∧ chordType ≠ "Dim") :
    generateChord rootNote chordType extensions = none := by
  obtain ⟨h1, h2, h3, h4⟩ := h
  simp [generateChord, CHORD_INTERVALS, h1, h2, h3, h4]

/-- Witness for the amended C3 at chord type `"Foo"`. -/
theorem generateChord_unknown_type_fails_witness :
    (("Foo" : String) ≠ "Maj" ∧ ("Foo" : String) ≠ "Min" ∧ ("Foo" : String) ≠ "Sus" ∧
        ("Foo" : String) ≠ "Dim") ∧
      generateChord 61 "Foo" ["m7"] = none :=
  ⟨by decide, generateChord_unknown_type_fails 61 "Foo" ["m7"] (by decide)⟩

/-- C8: `applyArpPattern` with pattern `"upDown"` returns the ascending
sorted list followed by its interior (first and last elements removed)
reversed, for every list of length at least 2; on `[60, 64, 67]` this is
`[60, 64, 67, 64]`. -/
theorem applyArpPattern_upDown (notes : List Int) (rand : Nat → ℚ)
    (h : 2 ≤ notes.length) :
    applyArpPattern notes "upDown" rand
        = sortAsc notes ++ (((sortAsc notes).drop 1).dropLast).reverse ∧
      applyArpPattern [60, 64, 67] "upDown" rand = [60, 64, 67, 64] := by
  constructor
  · have hlen : (sortAsc notes).length = notes.length := List.length_insertionSort _ _
    unfold applyArpPattern
    rw [if_neg (by decide), if_neg (by decide), if_pos rfl, if_neg (by omega)]
  · rfl

/-- Witness for C8 at `[60, 64, 67]`. -/
theorem applyArpPattern_upDown_witness :
    (2 ≤ ([60, 64, 67] : List Int).length) ∧
      (applyArpPattern [60, 64, 67] "upDown" (fun _ => 0)
          = sortAsc [60, 64, 67] ++ (((sortAsc [60, 64, 67]).drop 1).dropLast).reverse ∧
        applyArpPattern [60, 64, 67] "upDown" (fun _ => 0) = [60, 64, 67, 64]) :=
  ⟨by decide, applyArpPattern_upDown [60, 64, 67] (fun _ => 0) (by decide)⟩

/-- Deduplicating and then ascending-sorting yields a strictly increasing
list. -/
theorem sortAsc_dedup_pairwise (l : List Int) : (sortAsc l.dedup).Pairwise (· < ·) := by
  have hs : (sortAsc l.dedup).Sorted (· ≤ ·) := List.sorted_insertionSort _ _
  have hn : (sortAsc l.dedup).Nodup :=
    ((List.perm_insertionSort _ _).nodup_iff).2 (List.nodup_dedup l)
  exact hs.lt_of_le hn

/-- C1: for every root note, chord type among `{Maj, Min, Sus, Dim}` and
extension list, `generateChord` succeeds with a strictly ascending (hence
duplicate-free) list whose members are exactly the in-range sums of the root
with the type's base intervals and the selected extensions' intervals. -/
theorem generateChord_sorted_nodup_complete (rootNote : Int) (chordType : String)
    (extensions : List String)
    (ht : chordType = "Maj" ∨ chordType = "Min" ∨ chordType = "Sus" ∨ chordType = "Dim") :
    ∃ l, generateChord rootNote chordType extensions = some l ∧
      l.Pairwise (· < ·) ∧
      ∀ note : Int, note ∈ l ↔ 0 ≤ note ∧ note ≤ 127 ∧
        ∃ interval ∈ (CHORD_INTERVALS chordType).getD []
            ++ extensions.filterMap EXTENSION_INTERVALS, note = rootNote + interval := by
  obtain ⟨base, hbase⟩ : ∃ b, CHORD_INTERVALS chordType = some b := by
    rcases ht with h | h | h | h <;> (subst h; exact ⟨_, rfl⟩)
  refine ⟨((sortAsc (base ++ extensions.filterMap EXTENSION_INTERVALS).dedup).map
      (fun interval => rootNote + interval)).filter noteInRange, ?_, ?_, ?_⟩
  · simp [generateChord, hbase]
  · exact ((sortAsc_dedup_pairwise _).map _
      (fun a b hab => by omega)).filter _
  · intro note
    simp only [List.mem_filter, List.mem_map, sortAsc, List.mem_insertionSort, List.mem_dedup,
      hbase, Option.getD_some, noteInRange, decide_eq_true_eq]
    constructor
    · rintro ⟨⟨interval, hi, rfl⟩, h1, h2⟩
      exact ⟨h1, h2, interval, hi, rfl⟩
    · rintro ⟨h1, h2, interval, hi, rfl⟩
      exact ⟨⟨interval, hi, rfl⟩, h1, h2⟩

/-- Witness for C1 at root 60, type `"Maj"`, extensions `["m7"]`. -/
theorem generateChord_sorted_nodup_complete_witness :
    (("Maj" : String) = "Maj" ∨ ("Maj" : String) = "Min" ∨ ("Maj" : String) = "Sus" ∨
        ("Maj" : String) = "Dim") ∧
      ∃ l, generateChord 60 "Maj" ["m7"] = some l ∧
        l.Pairwise (· < ·) ∧
        ∀ note : Int, note ∈ l ↔ 0 ≤ note ∧ note ≤ 127 ∧
          ∃ interval ∈ (CHORD_INTERVALS "Maj").getD []
              ++ (["m7"] : List String).filterMap EXTENSION_INTERVALS, note = 60 + interval :=
  ⟨Or.inl rfl, generateChord_sorted_nodup_complete 60 "Maj" ["m7"] (Or.inl rfl)⟩

/-- Pitch class of a note (`note % 12` on the nonnegative notes the range
hypotheses guarantee). -/
def pitchClass (note : Int) : Int := note % 12

/-- The intermediate lists of one `applyVoicing` run: the sorted input and
the list after each of the `|position|` octave-moving steps (the last entry
is the pre-filter result). -/
def voicingIntermediates (notes : List Int) (position : Int) : List (List Int) :=
  (List.range (position.natAbs + 1)).map
    (fun k => (voicingStep position)^[k] (sortAsc notes))

/-- The `applyVoicing` keeps every intermediate list (and hence the final,
pre-filter list) inside `[0, 127]`. -/
def voicingStaysInRange (notes : List Int) (position : Int) : Bool :=
  (voicingIntermediates notes position).all (fun l => l.all noteInRange)

/-- Each voicing step only moves one note by an octave: the pitch-class
multiset is untouched. -/
theorem voicingStep_pc_perm (position : Int) (l : List Int) :
    List.Perm ((voicingStep position l).map pitchClass) (l.map pitchClass) := by
  unfold voicingStep
  split_ifs with hpos hneg
  · cases l with
    | nil => exact List.Perm.refl _
    | cons lowest rest =>
      have h : pitchClass (lowest + 12) = pitchClass lowest := by
        unfold pitchClass; omega
      have e1 := (List.perm_insertionSort (· ≤ ·) ((rest : List Int) ++ [lowest + 12])).map
        pitchClass
      rw [List.map_append, List.map_singleton, h] at e1
      exact e1.trans (List.perm_append_singleton _ _)
  · cases hl : l.getLast? with
    | none =>
      have he : l = [] := List.getLast?_eq_none_iff.1 hl
      subst he; exact List.Perm.refl _
    | some highest =>
      have h : pitchClass (highest - 12) = pitchClass highest := by
        unfold pitchClass; omega
      have hdl : l.dropLast ++ [highest] = l := List.dropLast_append_getLast? _ hl
      have e1 := (List.perm_insertionSort (· ≤ ·)
        (((highest : Int) - 12) :: l.dropLast)).map pitchClass
      rw [List.map_cons, h] at e1
      refine e1.trans ?_
      have e2 : List.Perm (l.dropLast.map pitchClass ++ [pitchClass highest])
          ((l.dropLast ++ [highest]).map pitchClass) := by
        rw [List.map_append, List.map_singleton]
      rw [hdl] at e2
      exact (List.perm_append_singleton _ _).symm.trans e2
  · exact List.Perm.refl _

/-- Iterating voicing steps keeps the pitch-class multiset. -/
theorem voicingIterate_pc_perm (position : Int) (k : Nat) (l : List Int) :
    List.Perm (((voicingStep position)^[k] l).map pitchClass) (l.map pitchClass) := by
  induction k generalizing l with
  | zero => exact List.Perm.refl _
  | succ k ih =>
    rw [Function.iterate_succ_apply]
    exact (ih _).trans (voicingStep_pc_perm position l)

/-- When no intermediate leaves `[0, 127]`, the final filter drops nothing
and `applyVoicing` permutes the pitch-class multiset of its input. -/
theorem applyVoicing_pc_perm (notes : List Int) (position : Int)
    (h : voicingStaysInRange notes position = true) :
    List.Perm ((applyVoicing notes position).map pitchClass) (notes.map pitchClass) := by
  by_cases hne : notes = []
  · subst hne; simp [applyVoicing]
  · unfold applyVoicing
    rw [if_neg hne]
    have hmem : (voicingStep position)^[position.natAbs] (sortAsc notes)
        ∈ voicingIntermediates notes position := by
      unfold voicingIntermediates
      exact List.mem_map.2 ⟨position.natAbs, List.mem_range.2 (Nat.lt_succ_self _), rfl⟩
    have hall : ((voicingStep position)^[position.natAbs] (sortAsc notes)).all noteInRange
        = true := by
      unfold voicingStaysInRange at h
      exact List.all_eq_true.1 h _ hmem
    rw [List.filter_eq_self.2 (List.all_eq_true.1 hall)]
    exact (voicingIterate_pc_perm position _ _).trans
      ((List.perm_insertionSort _ _).map _)

/-- C5: for `n` in `[-4, 4]` and note lists whose intermediate results stay
within `[0, 127]` through both applications, `applyVoicing(applyVoicing(notes,
n), -n)` has the same pitch-class multiset as the original notes. -/
theorem applyVoicing_reversible (notes : List Int) (n : Int)
    (h1 : -4 ≤ n) (h2 : n ≤ 4)
    (h3 : voicingStaysInRange notes n = true)
    (h4 : voicingStaysInRange (applyVoicing notes n) (-n) = true) :
    ((applyVoicing (applyVoicing notes n) (-n)).map pitchClass : Multiset Int)
      = (notes.map pitchClass : Multiset Int) :=
  Multiset.coe_eq_coe.2
    ((applyVoicing_pc_perm (applyVoicing notes n) (-n) h4).trans
      (applyVoicing_pc_perm notes n h3))

/-- Witness for C5 at notes `[60, 64, 67]`, `n = 1`. -/
theorem applyVoicing_reversible_witness :
    ((-4 : Int) ≤ 1 ∧ (1 : Int) ≤ 4 ∧
        voicingStaysInRange [60, 64, 67] 1 = true ∧
        voicingStaysInRange (applyVoicing [60, 64, 67] 1) (-1) = true) ∧
      ((applyVoicing (applyVoicing [60, 64, 67] 1) (-1)).map pitchClass : Multiset Int)
        = (([60, 64, 67] : List Int).map pitchClass : Multiset Int) :=
  ⟨⟨by decide, by decide, by decide, by decide⟩,
    applyVoicing_reversible [60, 64, 67] 1 (by decide) (by decide) (by decide) (by decide)⟩

/-- C7: with slop 0 and without two-octave mode, `generateStrum` assigns the
i-th note of the ascending sorted list the delay `i * gap` where
`gap = 10 + ((127 - dial) / 127) * 90` milliseconds; dial 127 gives the
minimum 10 ms gap and dial 0 the maximum 100 ms gap. -/
theorem generateStrum_linear_delays (notes : List Int) (dialPosition velocity : Int)
    (rand : Nat → ℚ) (hne : notes ≠ []) (hd0 : 0 ≤ dialPosition) (hd1 : dialPosition ≤ 127) :
    (generateStrum notes dialPosition velocity ⟨false, 0⟩ rand).length = notes.length ∧
      (∀ i (hi : i < (generateStrum notes dialPosition velocity ⟨false, 0⟩ rand).length),
        ((generateStrum notes dialPosition velocity ⟨false, 0⟩ rand).get ⟨i, hi⟩).delayMs
            = i * (10 + ((127 - (dialPosition : ℚ)) / 127) * 90) ∧
        ((generateStrum notes dialPosition velocity ⟨false, 0⟩ rand).get ⟨i, hi⟩).note
            = (sortAsc notes).getD i 0) ∧
      (dialPosition = 127 → 10 + ((127 - (dialPosition : ℚ)) / 127) * 90 = 10) ∧
      (dialPosition = 0 → 10 + ((127 - (dialPosition : ℚ)) / 127) * 90 = 100) := by
  have h90 : (100 - 10 : ℚ) = 90 := by norm_num
  have hgen : generateStrum notes dialPosition velocity ⟨false, 0⟩ rand
      = (sortAsc notes).mapIdx (fun index note =>
          { note := note, velocity := velocity,
            delayMs := (index : ℚ) * (10 + ((127 - (dialPosition : ℚ)) / 127) * (100 - 10)),
            durationMs := none, channel := chPERFORMANCE }) := rfl
  rw [h90] at hgen
  refine ⟨?_, ?_, ?_, ?_⟩
  · rw [hgen, List.length_mapIdx]
    exact List.length_insertionSort _ _
  · intro i hi
    have hlen : i < (sortAsc notes).length := by
      have h := hi
      rw [hgen, List.length_mapIdx] at h
      exact h
    simp only [hgen, List.get_eq_getElem, List.getElem_mapIdx]
    refine ⟨trivial, ?_⟩
    simp [List.getD_eq_getElem?_getD, List.getElem?_eq_getElem hlen]
  · intro h; subst h; norm_num
  · intro h; subst h; norm_num

/-- Witness for C7 at notes `[64, 60]`, dial 127, velocity 90. -/
theorem generateStrum_linear_delays_witness :
    (([64, 60] : List Int) ≠ [] ∧ (0 : Int) ≤ 127 ∧ (127 : Int) ≤ 127) ∧
      ((generateStrum [64, 60] 127 90 ⟨false, 0⟩ (fun _ => 0)).length
          = ([64, 60] : List Int).length ∧
        (∀ i (hi : i < (generateStrum [64, 60] 127 90 ⟨false, 0⟩ (fun _ => 0)).length),
          ((generateStrum [64, 60] 127 90 ⟨false, 0⟩ (fun _ => 0)).get ⟨i, hi⟩).delayMs
              = i * (10 + ((127 - ((127 : Int) : ℚ)) / 127) * 90) ∧
          ((generateStrum [64, 60] 127 90 ⟨false, 0⟩ (fun _ => 0)).get ⟨i, hi⟩).note
              = (sortAsc [64, 60]).getD i 0) ∧
        ((127 : Int) = 127 → 10 + ((127 - ((127 : Int) : ℚ)) / 127) * 90 = 10) ∧
        ((127 : Int) = 0 → 10 + ((127 - ((127 : Int) : ℚ)) / 127) * 90 = 100)) :=
  ⟨⟨by decide, by decide, by decide⟩,
    generateStrum_linear_delays [64, 60] 127 90 (fun _ => 0) (by decide) (by decide) (by decide)⟩

/-- Invariant of `OrchardMIDI`: every registry is duplicate-free, and while
no output is selected every registry is empty (notes enter a registry only
while an output is selected, and the UI never deselects the output). -/
def MidiInv (s : MidiState) : Prop :=
  (∀ ch, (s.activeNotes ch).Nodup) ∧ (s.output = false → ∀ ch, s.activeNotes ch = [])

/-- The `Set.add` keeps a registry duplicate-free. -/
theorem insertNote_nodup (l : List Int) (note : Int) (h : l.Nodup) :
    (insertNote l note).Nodup := by
  unfold insertNote
  split_ifs with hm
  · exact h
  · simp [List.nodup_append, h, hm]

/-- Components of a `noteOn` call with an output selected. -/
theorem noteOn_components (s : MidiState) (channel : Channel) (note velocity : Int)
    (hout : s.output = true) :
    (s.noteOn channel note velocity).1.output = true ∧
      (s.noteOn channel note velocity).1.activeNotes channel
        = insertNote (s.activeNotes channel) note ∧
      (s.noteOn channel note velocity).2
        = [MidiMsg.on channel (note % 128) (velocity % 128)] := by
  unfold MidiState.noteOn
  simp [hout]

/-- Components of a `noteOff` call with an output selected. -/
theorem noteOff_components (s : MidiState) (channel : Channel) (note : Int)
    (hout : s.output = true) :
    (s.noteOff channel note).1.output = true ∧
      (s.noteOff channel note).1.activeNotes channel
        = deleteNote (s.activeNotes channel) note ∧
      (s.noteOff channel note).2 = [MidiMsg.off channel (note % 128)] := by
  unfold MidiState.noteOff
  simp [hout]

/-- The `noteOn` preserves the invariant. -/
theorem noteOn_inv (s : MidiState) (channel : Channel) (note velocity : Int)
    (h : MidiInv s) : MidiInv (s.noteOn channel note velocity).1 := by
  obtain ⟨hnd, hemp⟩ := h
  unfold MidiState.noteOn
  split_ifs with hout
  · refine ⟨?_, ?_⟩
    · intro ch
      dsimp only
      split_ifs with hc
      · exact insertNote_nodup _ _ (hnd channel)
      · exact hnd ch
    · intro hf
      simp only at hf
      rw [hout] at hf
      cases hf
  · exact ⟨hnd, hemp⟩

/-- The `noteOff` preserves the invariant. -/
theorem noteOff_inv (s : MidiState) (channel : Channel) (note : Int)
    (h : MidiInv s) : MidiInv (s.noteOff channel note).1 := by
  obtain ⟨hnd, hemp⟩ := h
  unfold MidiState.noteOff
  split_ifs with hout
  · refine ⟨?_, ?_⟩
    · intro ch
      dsimp only
      split_ifs with hc
      · exact (hnd channel).filter _
      · exact hnd ch
    · intro hf
      simp only at hf
      rw [hout] at hf
      cases hf
  · exact ⟨hnd, hemp⟩

/-- The `allNotesOff` iteration preserves the invariant. -/
theorem noteOffList_inv (channel : Channel) (l : List Int) (s : MidiState)
    (h : MidiInv s) : MidiInv (s.noteOffList channel l).1 := by
  induction l generalizing s with
  | nil => exact h
  | cons n rest ih =>
    simp only [MidiState.noteOffList]
    exact ih _ (noteOff_inv s channel n h)

/-- The `scheduleBatch` touches only the pending-timer list. -/
theorem scheduleBatch_fields (s : MidiState) (events : List SchedEvent)
    (cancelPrevious : Bool) :
    (s.scheduleBatch events cancelPrevious).activeNotes = s.activeNotes ∧
      (s.scheduleBatch events cancelPrevious).output = s.output := by
  unfold MidiState.scheduleBatch MidiState.cancelPending
  split_ifs <;> exact ⟨rfl, rfl⟩

/-- Every reachable `OrchardMIDI` state satisfies the invariant. -/
theorem reachable_inv {s : MidiState} (h : Reachable s) : MidiInv s := by
  induction h with
  | init => exact ⟨fun _ => List.nodup_nil, fun _ _ => rfl⟩
  | connect _ ih =>
    refine ⟨ih.1, ?_⟩
    intro hf
    cases hf
  | noteOn channel note velocity _ ih => exact noteOn_inv _ channel note velocity ih
  | noteOff channel note _ ih => exact noteOff_inv _ channel note ih
  | allOff channel _ ih => exact noteOffList_inv channel _ _ ih
  | cancel _ ih => exact ⟨ih.1, ih.2⟩
  | sched events cancelPrevious _ ih =>
    obtain ⟨ha, ho⟩ := scheduleBatch_fields _ events cancelPrevious
    constructor
    · intro ch
      rw [ha]
      exact ih.1 ch
    · intro hf ch
      rw [ha]
      rw [ho] at hf
      exact ih.2 hf ch

/-- With an output selected, iterating `noteOff` over a duplicate-free
snapshot of the registry empties the registry and sends one note-off per
snapshot entry, in order. -/
theorem noteOffList_clears (channel : Channel) :
    ∀ (l : List Int) (s : MidiState), s.output = true → l.Nodup →
      s.activeNotes channel = l →
      (s.noteOffList channel l).1.activeNotes channel = [] ∧
        (s.noteOffList channel l).2
          = l.map (fun note => MidiMsg.off channel (note % 128)) := by
  intro l
  induction l with
  | nil =>
    intro s _ _ hreg
    exact ⟨hreg, rfl⟩
  | cons n rest ih =>
    intro s hout hnd hreg
    obtain ⟨ho1, ha1, hm1⟩ := noteOff_components s channel n hout
    have hreg1 : (s.noteOff channel n).1.activeNotes channel = rest := by
      rw [ha1, hreg]
      unfold deleteNote
      rw [List.filter_cons_of_neg (by simp)]
      exact List.filter_eq_self.2 (fun a ha => by
        simp only [decide_eq_true_eq]
        intro he
        exact (List.nodup_cons.1 hnd).1 (he ▸ ha))
    obtain ⟨ih1, ih2⟩ := ih (s.noteOff channel n).1 ho1 (List.nodup_cons.1 hnd).2 hreg1
    simp only [MidiState.noteOffList]
    exact ⟨ih1, by rw [hm1, ih2]; rfl⟩

/-- C2: for every reachable `OrchardMIDI` state and every channel,
`allNotesOff(channel)` synchronously sends a note-off for every note
currently recorded in that channel's registry — in registry order,
regardless of how each note was started — and the registry for that channel
is empty immediately afterwards. -/
theorem allNotesOff_empties_registry (s : MidiState) (channel : Channel)
    (h : Reachable s) :
    (s.allNotesOff channel).1.activeNotes channel = [] ∧
      (s.allNotesOff channel).2
        = (s.activeNotes channel).map (fun note => MidiMsg.off channel (note % 128)) := by
  obtain ⟨hnd, hemp⟩ := reachable_inv h
  unfold MidiState.allNotesOff
  cases hout : s.output with
  | false =>
    have he : s.activeNotes channel = [] := hemp hout channel
    rw [he]
    exact ⟨he, rfl⟩
  | true => exact noteOffList_clears channel (s.activeNotes channel) s hout (hnd channel) rfl

/-- Witness for C2: connect an output, start note 60 on the chord channel,
then flush it. -/
theorem allNotesOff_empties_registry_witness :
    ((({ initMidi with output := true } : MidiState).noteOn chCHORD 60 100).1.allNotesOff
          chCHORD).1.activeNotes chCHORD = [] ∧
      ((({ initMidi with output := true } : MidiState).noteOn chCHORD 60 100).1.allNotesOff
            chCHORD).2
        = (((({ initMidi with output := true } : MidiState).noteOn chCHORD
              60 100).1).activeNotes chCHORD).map
            (fun note => MidiMsg.off chCHORD (note % 128)) :=
  allNotesOff_empties_registry _ chCHORD
    (Reachable.noteOn chCHORD 60 100 (Reachable.connect Reachable.init))

/-- A note is a member of the registry after `Set.add`-ing it. -/
theorem mem_insertNote_self (l : List Int) (note : Int) : note ∈ insertNote l note := by
  unfold insertNote
  split_ifs with hm
  · exact hm
  · simp

/-- A note is gone after `Set.delete`-ing it. -/
theorem not_mem_deleteNote (l : List Int) (note : Int) : note ∉ deleteNote l note := by
  unfold deleteNote
  intro hmem
  have h := (List.mem_filter.1 hmem).2
  simp at h

/-- The `Map.get` after `Map.set` at the same key returns the stored value. -/
theorem mapGet_mapSet (m : List (Int × Int)) (k v : Int) :
    mapGet (mapSet m k v) k = some v := by
  induction m with
  | nil => simp [mapSet, mapGet]
  | cons p t ih =>
    by_cases hp : p.1 = k
    · simp [mapSet, mapGet, hp, List.find?]
    · by_cases ht : t.any (fun q => decide (q.1 = k)) = true
      · simpa [mapSet, mapGet, hp, ht, List.find?] using ih
      · simpa [mapSet, mapGet, hp, ht, List.find?] using ih

/-- The `Map.get` after `Map.delete` at the same key finds nothing. -/
theorem mapGet_mapDelete (m : List (Int × Int)) (k : Int) :
    mapGet (mapDelete m k) k = none := by
  unfold mapGet mapDelete
  have h : (m.filter (fun p => decide (p.1 ≠ k))).find? (fun p => decide (p.1 = k)) = none := by
    rw [List.find?_eq_none]
    intro x hx
    have h2 := (List.mem_filter.1 hx).2
    simp only [decide_eq_true_eq] at h2 ⊢
    exact fun he => h2 he
  rw [h]
  rfl

/-- C6: for an input note pressed while its effective mode is Quantize, the
engine forwards exactly the quantized note (not the pressed note) on
note-on, records the pressed-note → quantized-note mapping, and the matching
note-off releases exactly the quantized note that was sent; the mapping
entry (and the pass-through entry) is removed by that note-off. -/
theorem quantize_mode_lifecycle (e : EngineState) (midiNote velocity : Int)
    (hmode : e.getModeForNote midiNote = "quantize") (hout : e.midi.output = true) :
    (e.onMIDINoteOn midiNote velocity).2
        = [MidiMsg.on chCHORD
            (quantizeNoteToKey midiNote (e.getEffectiveSettings midiNote).quantize.root
                (e.getEffectiveSettings midiNote).quantize.scale % 128) (velocity % 128)] ∧
      mapGet (e.onMIDINoteOn midiNote velocity).1.quantizedNoteMap midiNote
        = some (quantizeNoteToKey midiNote (e.getEffectiveSettings midiNote).quantize.root
            (e.getEffectiveSettings midiNote).quantize.scale) ∧
      ((e.onMIDINoteOn midiNote velocity).1.onMIDINoteOff midiNote).2
        = [MidiMsg.off chCHORD
            (quantizeNoteToKey midiNote (e.getEffectiveSettings midiNote).quantize.root
                (e.getEffectiveSettings midiNote).quantize.scale % 128)] ∧
      mapGet ((e.onMIDINoteOn midiNote velocity).1.onMIDINoteOff midiNote).1.quantizedNoteMap
          midiNote = none ∧
      midiNote ∉
        ((e.onMIDINoteOn midiNote velocity).1.onMIDINoteOff midiNote).1.passThroughNotes := by
  set q := quantizeNoteToKey midiNote (e.getEffectiveSettings midiNote).quantize.root
    (e.getEffectiveSettings midiNote).quantize.scale with hqdef
  have hon : e.onMIDINoteOn midiNote velocity
      = ({ e with
            passThroughNotes := insertNote e.passThroughNotes midiNote,
            quantizedNoteMap := mapSet e.quantizedNoteMap midiNote q,
            midi := (e.midi.noteOn chCHORD q velocity).1 },
          (e.midi.noteOn chCHORD q velocity).2) := by
    have hoffne : ("quantize" : String) ≠ "off" := by decide
    have hqq : ("quantize" : String) = "quantize" := rfl
    simp only [EngineState.onMIDINoteOn, hmode, if_neg hoffne, if_pos hqq, if_true, if_false,
      eq_self_iff_true]
  obtain ⟨ho1, ha1, hm1⟩ := noteOn_components e.midi chCHORD q velocity hout
  have hoff := noteOff_components (e.midi.noteOn chCHORD q velocity).1 chCHORD q ho1
  refine ⟨?_, ?_, ?_, ?_, ?_⟩
  · rw [hon]
    exact hm1
  · rw [hon]
    exact mapGet_mapSet _ _ _
  · rw [hon]
    simp only [EngineState.onMIDINoteOff, mem_insertNote_self, if_pos, mapGet_mapSet]
    exact hoff.2.2
  · rw [hon]
    simp only [EngineState.onMIDINoteOff, mem_insertNote_self, if_pos, mapGet_mapSet]
    exact mapGet_mapDelete _ _
  · rw [hon]
    simp only [EngineState.onMIDINoteOff, mem_insertNote_self, if_pos, mapGet_mapSet]
    exact not_mem_deleteNote _ _

/-- Witness for C6: default engine state with global mode `"quantize"`, an
output connected, pressing note 61 (which quantizes to 60 in C major). -/
theorem quantize_mode_lifecycle_witness :
    (quantizeModeState.onMIDINoteOn 61 100).2
        = [MidiMsg.on chCHORD
            (quantizeNoteToKey 61 (quantizeModeState.getEffectiveSettings 61).quantize.root
                (quantizeModeState.getEffectiveSettings 61).quantize.scale % 128) (100 % 128)] ∧
      mapGet (quantizeModeState.onMIDINoteOn 61 100).1.quantizedNoteMap 61
        = some (quantizeNoteToKey 61 (quantizeModeState.getEffectiveSettings 61).quantize.root
            (quantizeModeState.getEffectiveSettings 61).quantize.scale) ∧
      ((quantizeModeState.onMIDINoteOn 61 100).1.onMIDINoteOff 61).2
        = [MidiMsg.off chCHORD
            (quantizeNoteToKey 61 (quantizeModeState.getEffectiveSettings 61).quantize.root
                (quantizeModeState.getEffectiveSettings 61).quantize.scale % 128)] ∧
      mapGet ((quantizeModeState.onMIDINoteOn 61 100).1.onMIDINoteOff 61).1.quantizedNoteMap 61
        = none ∧
      (61 : Int) ∉ ((quantizeModeState.onMIDINoteOn 61 100).1.onMIDINoteOff 61).1.passThroughNotes :=
  quantize_mode_lifecycle quantizeModeState 61 100 rfl rfl

set_option maxHeartbeats 2000000 in
set_option maxRecDepth 4000 in
/-- Idempotence of the quantizer on the major scale, checked over the full
`[0,127] × [0,11]` input grid. -/
theorem quantIdem_major : ∀ x : Nat, x < 128 → ∀ r : Nat, r < 12 →
    quantizeNoteToKey (quantizeNoteToKey ↑x ↑r "major") ↑r "major"
      = quantizeNoteToKey ↑x ↑r "major" := by decide

set_option maxHeartbeats 2000000 in
set_option maxRecDepth 4000 in
/-- Idempotence of the quantizer on the natural minor scale, checked over the
full input grid. -/
theorem quantIdem_natural_minor : ∀ x : Nat, x < 128 → ∀ r : Nat, r < 12 →
    quantizeNoteToKey (quantizeNoteToKey ↑x ↑r "natural_minor") ↑r "natural_minor"
      = quantizeNoteToKey ↑x ↑r "natural_minor" := by decide

set_option maxHeartbeats 2000000 in
set_option maxRecDepth 4000 in
/-- Idempotence of the quantizer on the harmonic minor scale, checked over
the full input grid. -/
theorem quantIdem_harmonic_minor : ∀ x : Nat, x < 128 → ∀ r : Nat, r < 12 →
    quantizeNoteToKey (quantizeNoteToKey ↑x ↑r "harmonic_minor") ↑r "harmonic_minor"
      = quantizeNoteToKey ↑x ↑r "harmonic_minor" := by decide

set_option maxHeartbeats 2000000 in
set_option maxRecDepth 4000 in
/-- Idempotence of the quantizer on the dorian scale, checked over the full
input grid. -/
theorem quantIdem_dorian : ∀ x : Nat, x < 128 → ∀ r : Nat, r < 12 →
    quantizeNoteToKey (quantizeNoteToKey ↑x ↑r "dorian") ↑r "dorian"
      = quantizeNoteToKey ↑x ↑r "dorian" := by decide

set_option maxHeartbeats 2000000 in
set_option maxRecDepth 4000 in
/-- Idempotence of the quantizer on the mixolydian scale, checked over the
full input grid. -/
theorem quantIdem_mixolydian : ∀ x : Nat, x < 128 → ∀ r : Nat, r < 12 →
    quantizeNoteToKey (quantizeNoteToKey ↑x ↑r "mixolydian") ↑r "mixolydian"
      = quantizeNoteToKey ↑x ↑r "mixolydian" := by decide

set_option maxHeartbeats 2000000 in
set_option maxRecDepth 4000 in
/-- Idempotence of the quantizer on the pentatonic major scale, checked over
the full input grid. -/
theorem quantIdem_pentatonic_major : ∀ x : Nat, x < 128 → ∀ r : Nat, r < 12 →
    quantizeNoteToKey (quantizeNoteToKey ↑x ↑r "pentatonic_major") ↑r "pentatonic_major"
      = quantizeNoteToKey ↑x ↑r "pentatonic_major" := by decide

set_option maxHeartbeats 2000000 in
set_option maxRecDepth 4000 in
/-- Idempotence of the quantizer on the pentatonic minor scale, checked over
the full input grid. -/
theorem quantIdem_pentatonic_minor : ∀ x : Nat, x < 128 → ∀ r : Nat, r < 12 →
    quantizeNoteToKey (quantizeNoteToKey ↑x ↑r "pentatonic_minor") ↑r "pentatonic_minor"
      = quantizeNoteToKey ↑x ↑r "pentatonic_minor" := by decide

set_option maxHeartbeats 2000000 in
set_option maxRecDepth 4000 in
/-- Idempotence of the quantizer on the blues scale, checked over the full
input grid. -/
theorem quantIdem_blues : ∀ x : Nat, x < 128 → ∀ r : Nat, r < 12 →
    quantizeNoteToKey (quantizeNoteToKey ↑x ↑r "blues") ↑r "blues"
      = quantizeNoteToKey ↑x ↑r "blues" := by decide

/-- C4: `quantizeNoteToKey` is idempotent for every MIDI note in `[0, 127]`,
every scale root in `[0, 11]` and every scale type (the eight supported
scales by exhaustive check; all other scale names act as the identity). -/
theorem quantizeNoteToKey_idempotent (x r : Int) (scaleType : String)
    (hx0 : 0 ≤ x) (hx : x ≤ 127) (hr0 : 0 ≤ r) (hr : r ≤ 11) :
    quantizeNoteToKey (quantizeNoteToKey x r scaleType) r scaleType
      = quantizeNoteToKey x r scaleType := by
  obtain ⟨xn, rfl⟩ := Int.eq_ofNat_of_zero_le hx0
  obtain ⟨rn, rfl⟩ := Int.eq_ofNat_of_zero_le hr0
  have hxn : xn < 128 := by omega
  have hrn : rn < 12 := by omega
  by_cases h1 : scaleType = "major"
  · subst h1; exact quantIdem_major xn hxn rn hrn
  by_cases h2 : scaleType = "natural_minor"
  · subst h2; exact quantIdem_natural_minor xn hxn rn hrn
  by_cases h3 : scaleType = "harmonic_minor"
  · subst h3; exact quantIdem_harmonic_minor xn hxn rn hrn
  by_cases h4 : scaleType = "dorian"
  · subst h4; exact quantIdem_dorian xn hxn rn hrn
  by_cases h5 : scaleType = "mixolydian"
  · subst h5; exact quantIdem_mixolydian xn hxn rn hrn
  by_cases h6 : scaleType = "pentatonic_major"
  · subst h6; exact quantIdem_pentatonic_major xn hxn rn hrn
  by_cases h7 : scaleType = "pentatonic_minor"
  · subst h7; exact quantIdem_pentatonic_minor xn hxn rn hrn
  by_cases h8 : scaleType = "blues"
  · subst h8; exact quantIdem_blues xn hxn rn hrn
  have hd : SCALE_DEGREES scaleType = none := by
    simp [SCALE_DEGREES, h1, h2, h3, h4, h5, h6, h7, h8]
  simp [quantizeNoteToKey, hd]

/-- Witness for C4 at note 61, root 0, major scale (61 is out of scale and
moves to 60). -/
theorem quantizeNoteToKey_idempotent_witness :
    ((0 : Int) ≤ 61 ∧ (61 : Int) ≤ 127 ∧ (0 : Int) ≤ 0 ∧ (0 : Int) ≤ 11) ∧
      quantizeNoteToKey (quantizeNoteToKey 61 0 "major") 0 "major"
        = quantizeNoteToKey 61 0 "major" :=
  ⟨⟨by decide, by decide, by decide, by decide⟩,
    quantizeNoteToKey_idempotent 61 0 "major" (by decide) (by decide) (by decide) (by decide)⟩

end Orchard
